import Mathlib

/-!
Shallow embedding of src/workflow.py (auto-insurance-claim-processor).

Modelling conventions:
* Python floats carrying money amounts are modelled as rationals. Every
  arithmetic operation the claims touch (comparison with 15000, subtraction
  of the 500 deductible from an amount below 15000, max with 0) is exact in
  IEEE double for the values the code can reach, so the rational model
  agrees with the float code on those operations.
* A JSON object is an association list of string keys and JSON values with
  Python-dict semantics: assignment overwrites in place, pop removes the
  key, lookup returns the first (unique) binding.
* Reading the claim file and json.load are collapsed into a `RawInput`
  value: the file may be missing, the bytes may fail to decode as JSON, or
  a JSON object is obtained.
* pydantic model_validate on ClaimInfo runs in v2 default lax mode: each
  required field must be present and pass its type check, where the float
  field also accepts a numeric string (coerced through float parsing) but
  not a boolean, and the string fields accept only strings; the raised
  ValidationError carries the list of offending field names (the Python
  code re-wraps it in a ValueError whose message embeds those names).
  Non-finite float spellings (inf, nan) lie outside the rational model of
  floats and are not treated.
-/

namespace Workflow

/-- JSON scalar values as far as the claim schema needs them. -/
inductive JVal where
  | jstr (s : String)
  | jnum (q : ℚ)
  | jbool (b : Bool)
  | jnull
  deriving DecidableEq, Repr

/-- A JSON object: association list with unique keys, Python-dict style. -/
abbrev JObj := List (String × JVal)

/-- Generic first-binding lookup on an association list. -/
def assocGet {α : Type} : List (String × α) → String → Option α
  | [], _ => none
  | p :: t, k => if p.1 = k then some p.2 else assocGet t k

/-- Generic Python-dict assignment on an association list: overwrite the
binding in place when the key is present, append it otherwise. -/
def assocSet {α : Type} (m : List (String × α)) (k : String) (v : α) :
    List (String × α) :=
  if m.any (fun p => p.1 = k) then
    m.map (fun p => if p.1 = k then (k, v) else p)
  else
    m ++ [(k, v)]

/-- Lookup of a key in a JSON object (first binding wins). -/
def dget (m : JObj) (k : String) : Option JVal :=
  assocGet m k

/-- Python dict assignment `m[k] = v`. -/
def dset (m : JObj) (k : String) (v : JVal) : JObj :=
  assocSet m k v

/-- Python dict `m.pop(k)` (the removal part): drop every binding of `k`. -/
def dpop : JObj → String → JObj
  | [], _ => []
  | p :: t, k => if p.1 = k then dpop t k else p :: dpop t k

/-- One legacy-alias rename: `if src in data: data[dst] = data.pop(src)`. -/
def moveKey (m : JObj) (src dst : String) : JObj :=
  match dget m src with
  | some v => dset (dpop m src) dst v
  | none => m

/-- The fixed legacy rename table applied by parse_claim, in source order
(innermost first): damage_amount, policyholder_name, date_of_incident,
description. -/
def renameLegacy (m : JObj) : JObj :=
  moveKey
    (moveKey
      (moveKey
        (moveKey m "damage_amount" "estimated_repair_cost")
        "policyholder_name" "claimant_name")
      "date_of_incident" "date_of_loss")
    "description" "loss_description"

/-- ClaimInfo: the validated in-memory claim record (pydantic BaseModel). -/
structure ClaimInfo where
  claim_number : String
  policy_number : String
  claimant_name : String
  date_of_loss : String
  loss_description : String
  estimated_repair_cost : ℚ
  vehicle_details : Option String := none
  deriving DecidableEq, Repr

/-- Field access of a string-typed field, as pydantic v2 validates it:
only a JSON string is accepted (lax mode does not turn numbers into
strings). -/
def getStr (m : JObj) (k : String) : Option String :=
  match dget m k with
  | some (JVal.jstr s) => some s
  | _ => none

/-- Longest digit run at the head of a character list, with the rest. -/
def spanDigits : List Char → List Char × List Char
  | [] => ([], [])
  | c :: cs =>
      if c.isDigit then
        let r := spanDigits cs
        (c :: r.1, r.2)
      else ([], c :: cs)

/-- Decimal digit run read as a natural number. -/
def digitsToNat (ds : List Char) : Nat :=
  ds.foldl (fun n c => n * 10 + (c.toNat - 48)) 0

/-- An optional leading sign; returns whether the value is negated and
the remaining characters. -/
def parseSign : List Char → Bool × List Char
  | '-' :: cs => (true, cs)
  | '+' :: cs => (false, cs)
  | cs => (false, cs)

/-- An optional exponent suffix (e or E, optional sign, digits) that must
consume the whole remainder; none on any other leftover text. -/
def parseExp : List Char → Option Int
  | [] => some 0
  | c :: cs =>
      if c = 'e' ∨ c = 'E' then
        let sr := parseSign cs
        let dr := spanDigits sr.2
        if dr.1.isEmpty ∨ ¬ dr.2.isEmpty then none
        else some (if sr.1 then -(digitsToNat dr.1 : Int) else (digitsToNat dr.1 : Int))
      else none

/-- The numeric-string-to-float coercion pydantic v2 lax mode applies to
a float field: surrounding whitespace is ignored, then an optional sign,
decimal digits with an optional fractional part, and an optional
exponent, exactly as Python float parsing reads finite decimals. The
non-finite spellings (inf, nan) fall outside the rational embedding of
floats and are not modelled. -/
def parseFloat? (s : String) : Option ℚ :=
  let cs0 := s.toList.dropWhile Char.isWhitespace
  let cs := (cs0.reverse.dropWhile Char.isWhitespace).reverse
  let sg := parseSign cs
  let ir := spanDigits sg.2
  let fr :=
    match ir.2 with
    | '.' :: rest => spanDigits rest
    | _ => (([] : List Char), ir.2)
  match parseExp fr.2 with
  | none => none
  | some e =>
      if ir.1.isEmpty ∧ fr.1.isEmpty then none
      else
        let mant : Nat := digitsToNat (ir.1 ++ fr.1)
        let num : Int := if sg.1 then -(mant : Int) else (mant : Int)
        let e10 : Int := e - fr.1.length
        some (if 0 ≤ e10 then mkRat (num * ((10 : Int) ^ e10.toNat)) 1
              else mkRat num ((10 : Nat) ^ (-e10).toNat))

/-- Field access of the float-typed field, as pydantic v2 lax mode
validates it: a JSON number is taken as is, and a JSON string is coerced
through numeric-string parsing; booleans and other shapes are rejected. -/
def getFloat (m : JObj) (k : String) : Option ℚ :=
  match dget m k with
  | some (JVal.jnum q) => some q
  | some (JVal.jstr s) => parseFloat? s
  | _ => none

/-- The optional vehicle_details field: absent or null is a valid None,
a string is wrapped, any other type is a validation failure. -/
def getVehicle (m : JObj) : Option (Option String) :=
  match dget m "vehicle_details" with
  | none => some none
  | some JVal.jnull => some none
  | some (JVal.jstr s) => some (some s)
  | some _ => none

/-- Required field names of ClaimInfo, in declaration order. -/
def requiredFields : List String :=
  ["claim_number", "policy_number", "claimant_name", "date_of_loss",
   "loss_description", "estimated_repair_cost"]

/-- Typed presence check of one field, mirroring the pydantic schema with
the v2 lax coercions of getStr, getFloat and getVehicle. -/
def fieldOk (m : JObj) (f : String) : Bool :=
  if f = "estimated_repair_cost" then (getFloat m f).isSome
  else if f = "vehicle_details" then (getVehicle m).isSome
  else (getStr m f).isSome

/-- Offending field names a pydantic ValidationError would report. -/
def offendingFields (m : JObj) : List String :=
  requiredFields.filter (fun f => ! fieldOk m f) ++
    (if (getVehicle m).isSome then [] else ["vehicle_details"])

/-- pydantic ClaimInfo.model_validate in its default lax mode: succeeds
exactly when every required field is present and passes its type check
(numeric strings are coerced for the float field); otherwise reports the
offending fields. -/
def model_validate (m : JObj) : Except (List String) ClaimInfo :=
  match getStr m "claim_number", getStr m "policy_number",
        getStr m "claimant_name", getStr m "date_of_loss",
        getStr m "loss_description", getFloat m "estimated_repair_cost",
        getVehicle m with
  | some cn, some pn, some nm, some dl, some ld, some rc, some vd =>
      Except.ok ⟨cn, pn, nm, dl, ld, rc, vd⟩
  | _, _, _, _, _, _, _ => Except.error (offendingFields m)

/-- Outcome of opening and json-decoding the claim file. -/
inductive RawInput where
  | fileNotFound
  | badJson
  | content (m : JObj)
  deriving DecidableEq, Repr

/-- Errors parse_claim can surface: FileNotFoundError, or the ValueError
wrapping a pydantic ValidationError (field names) or a JSON decode error. -/
inductive ParseErr where
  | notFoundError
  | valueError (offending : List String)
  deriving DecidableEq, Repr

/-- Decidable equality of Except results, for evaluating runs on concrete
inputs. -/
instance exceptDecEq {e a : Type} [DecidableEq e] [DecidableEq a] :
    DecidableEq (Except e a) := fun x y =>
  match x, y with
  | Except.ok u, Except.ok v =>
      if h : u = v then isTrue (by rw [h])
      else isFalse (fun hh => h (Except.ok.inj hh))
  | Except.error u, Except.error v =>
      if h : u = v then isTrue (by rw [h])
      else isFalse (fun hh => h (Except.error.inj hh))
  | Except.ok _, Except.error _ => isFalse (fun hh => Except.noConfusion hh)
  | Except.error _, Except.ok _ => isFalse (fun hh => Except.noConfusion hh)

/-- parse_claim: load JSON, apply the legacy rename table, validate. -/
def parse_claim (input : RawInput) : Except ParseErr ClaimInfo :=
  match input with
  | RawInput.fileNotFound => Except.error ParseErr.notFoundError
  | RawInput.badJson => Except.error (ParseErr.valueError [])
  | RawInput.content m =>
      match model_validate (renameLegacy m) with
      | Except.ok ci => Except.ok ci
      | Except.error errs => Except.error (ParseErr.valueError errs)

/-- PolicyQueries: list of query strings for policy retrieval. -/
structure PolicyQueries where
  queries : List String := []
  deriving DecidableEq, Repr

/-- PolicyRecommendation regarding a given claim. -/
structure PolicyRecommendation where
  policy_section : String
  recommendation_summary : String
  deductible : Option ℚ := none
  settlement_amount : Option ℚ := none
  deriving DecidableEq, Repr

/-- ClaimDecision: the terminal decision artifact. -/
structure ClaimDecision where
  claim_number : String
  covered : Bool
  deductible : ℚ
  recommended_payout : ℚ
  notes : Option String := none
  deriving DecidableEq, Repr

/-- Prefix test on character lists (helper for substring search). -/
def startsWith : List Char → List Char → Bool
  | [], _ => true
  | _ :: _, [] => false
  | p :: ps, c :: cs => p == c && startsWith ps cs

/-- Substring search on character lists: Python `pat in s`. -/
def hasSub (pat : List Char) : List Char → Bool
  | [] => startsWith pat []
  | c :: cs => startsWith pat (c :: cs) || hasSub pat cs

/-- Python `pat in s` on strings. -/
def strContains (s pat : String) : Bool :=
  hasSub pat.toList s.toList

/-- Python str.lower, character by character (the inputs the code builds
are ASCII). -/
def strLower (s : String) : String :=
  String.mk (s.data.map Char.toLower)

/-- Two-digit zero-padded rendering of a number below 100. -/
def pad2 (n : Nat) : String :=
  if n < 10 then "0" ++ toString n else toString n

/-- Python f-string formatting with two decimals, `f"{x:.2f}"`, for the
amounts the code can produce (exact hundredths render exactly; the model
rounds half away from zero where the double formatter rounds half to even,
a difference invisible at the values the claims use). -/
def fmt2 (q : ℚ) : String :=
  let cents : Int := round (q * 100)
  let sign := if cents < 0 then "-" else ""
  sign ++ toString (cents.natAbs / 100) ++ "." ++ pad2 (cents.natAbs % 100)

/-- generate_fallback_queries: the five fixed-template queries built when
no LLM is available. -/
def generate_fallback_queries (claim_info : ClaimInfo) : PolicyQueries :=
  { queries :=
      ["Coverage conditions for " ++ claim_info.policy_number,
       "Deductible application for collision damage",
       "Settlement amount calculation for vehicle damage",
       "Exclusions for " ++ strLower claim_info.loss_description,
       "Policy limits and coverage details"] }

/-- get_fallback_policy_text: the built-in policy-text template,
parameterized by the policy number. -/
def get_fallback_policy_text (claim_info : ClaimInfo) : String :=
  "\nCALIFORNIA PERSONAL AUTO POLICY\nPolicy Number: " ++
  claim_info.policy_number ++
  "\n\nPART D - COVERAGE FOR DAMAGE TO YOUR AUTO\nCOLLISION COVERAGE\n" ++
  "We will pay for direct and accidental loss to your covered auto caused by collision with another object or by upset of your covered auto.\n\n" ++
  "DEDUCTIBLE\nFor each loss, our limit of liability will be reduced by the applicable deductible amount shown in the Declarations.\n" ++
  "Standard collision deductible: $500\nComprehensive deductible: $250\n\n" ++
  "LIMITS OF LIABILITY\nOur limit of liability for loss will be the lesser of:\n" ++
  "1. The actual cash value of the stolen or damaged property; or\n" ++
  "2. The amount necessary to repair or replace the property.\n\n" ++
  "EXCLUSIONS\nWe do not provide coverage for:\n" ++
  "1. Loss to your covered auto which occurs while it is used to carry persons or property for compensation\n" ++
  "2. Loss due to wear and tear, freezing, mechanical breakdown\n" ++
  "3. Loss to equipment designed for the reproduction of sound\n        "

/-- generate_fallback_recommendation: rule-based recommendation. The
policy_text argument is accepted but never read. -/
def generate_fallback_recommendation (claim_info : ClaimInfo)
    (_policy_text : String) : PolicyRecommendation :=
  let covered : Bool := claim_info.estimated_repair_cost < 15000
  let deductible : ℚ := 500
  let settlement_amount : ℚ :=
    if covered then max 0 (claim_info.estimated_repair_cost - deductible)
    else 0
  let summary :=
    "Claim " ++ claim_info.claim_number ++ " for $" ++
      fmt2 claim_info.estimated_repair_cost ++ " damage" ++
    (if covered then
      " is covered. Settlement: $" ++ fmt2 settlement_amount ++
        " after $" ++ fmt2 deductible ++ " deductible."
     else
      " exceeds policy limits and is not covered.")
  { policy_section := "PART D - COLLISION COVERAGE"
    recommendation_summary := summary
    deductible := some deductible
    settlement_amount := some settlement_amount }

/-- finalize_decision: reconcile a recommendation into a ClaimDecision.
The payout branch mirrors Python truthiness: None and 0.0 both fall to
the 0.0 default. -/
def finalize_decision (claim_info : ClaimInfo)
    (rec : PolicyRecommendation) : ClaimDecision :=
  let lower := strLower rec.recommendation_summary
  let covered : Bool :=
    (strContains lower "covered" && ! strContains lower "not covered") ||
    (match rec.settlement_amount with
     | some s => decide (s > 0)
     | none => false)
  let deductible : ℚ :=
    match rec.deductible with
    | some d => d
    | none => 0
  let recommended_payout : ℚ :=
    match rec.settlement_amount with
    | some s => if s = 0 then 0 else s
    | none => 0
  { claim_number := claim_info.claim_number
    covered := covered
    deductible := deductible
    recommended_payout := recommended_payout
    notes := some rec.recommendation_summary }

/-- A retrieved document node: identifier plus text content. -/
structure Doc where
  id_ : String
  content : String
  deriving DecidableEq, Repr

/-- The retrieval capability: one query in, ranked documents out, or a
failure (modelling a raised exception). -/
def Retriever : Type := String → Except Unit (List Doc)

/-- The reasoning capability with its two structured-predict endpoints
(query generation and recommendation); each call may fail. -/
structure LLMCap where
  predictQueries : ClaimInfo → Except Unit PolicyQueries
  predictRec : ClaimInfo → String → Except Unit PolicyRecommendation

/-- The workflow constructor surface: optional retriever, optional llm,
verbose flag. The timeout wrapper lives outside the stage logic and is not
modelled; every run below is a non-timed-out run. -/
structure Config where
  policy_retriever : Option Retriever := none
  llm : Option LLMCap := none
  verbose : Bool := false

/-- Verbose-guarded trace emission: each stage writes its LogEvents only
when verbose is set. Numeric payloads inside messages are rendered with
reprStr where the Python uses model_dump_json or f-strings; no claim
depends on message payloads. -/
def vlog (cfg : Config) (msgs : List String) : List String :=
  if cfg.verbose then msgs else []

/-- get_declarations_docs: one canonical declarations-page lookup, keeping
at most top_k results; any retrieval failure degrades to no documents. -/
def get_declarations_docs (r : Retriever) (policy_number : String)
    (top_k : Nat) : List Doc :=
  match r ("declarations page for " ++ policy_number) with
  | Except.ok docs => docs.take top_k
  | Except.error _ => []

/-- The combined_docs dict of retrieve_policy_text: every document written
at its id_, in arrival order, later writes winning on duplicate ids. -/
def mergeDocs (ds : List Doc) : List (String × Doc) :=
  ds.foldl (fun acc d => assocSet acc d.id_ d) []

/-- The query loop of retrieve_policy_text: issue each query in order;
the first failing query aborts the loop (the surrounding try), keeping the
documents gathered so far. Returns the documents in retrieval order, a
flag telling whether the loop completed, and the per-query trace text. -/
def gather_docs (r : Retriever) : List String → List Doc × Bool × List String
  | [] => ([], true, [])
  | q :: qs =>
      match r q with
      | Except.ok docs =>
          let rest := gather_docs r qs
          (docs ++ rest.1, rest.2.1, (">> Query: " ++ q) :: rest.2.2)
      | Except.error _ => ([], false, [">> Query: " ++ q])

/-- Full document sequence a run retrieves: all query results, then (only
when the query loop did not raise) the declarations-page lookup. -/
def retrieved_docs (r : Retriever) (queries : List String)
    (policy_number : String) : List Doc :=
  let g := gather_docs r queries
  if g.2.1 then g.1 ++ get_declarations_docs r policy_number 1 else g.1

/-- generate_policy_queries stage: LLM if present, fallback on absence or
failure. Returns the queries and the stage's trace events. -/
def generate_policy_queries (cfg : Config) (claim_info : ClaimInfo) :
    PolicyQueries × List String :=
  let pre := vlog cfg [">> Generating Policy Queries"]
  let step :=
    match cfg.llm with
    | some l =>
        match l.predictQueries claim_info with
        | Except.ok q => (q, ([] : List String))
        | Except.error _ =>
            (generate_fallback_queries claim_info,
             vlog cfg [">> LLM query generation failed, using fallback"])
    | none => (generate_fallback_queries claim_info, [])
  (step.1, pre ++ step.2 ++
    vlog cfg [">> Generated " ++ toString step.1.queries.length ++ " queries"])

/-- retrieve_policy_text stage: merge all retrieval results by id (later
writes win), join the surviving texts with a blank line; fall back to the
built-in policy text when the retriever is absent or nothing arrived. -/
def retrieve_policy_text (cfg : Config) (claim_info : ClaimInfo)
    (ev : PolicyQueries) : String × List String :=
  let pre := vlog cfg [">> Retrieving policy sections"]
  let step :=
    match cfg.policy_retriever with
    | some r =>
        let g := gather_docs r ev.queries
        let ds := retrieved_docs r ev.queries claim_info.policy_number
        let combined := mergeDocs ds
        let failLog := if g.2.1 then [] else vlog cfg [">> Policy retrieval failed"]
        let text :=
          if combined.isEmpty then get_fallback_policy_text claim_info
          else String.intercalate "\n\n"
            (combined.map (fun (p : String × Doc) => p.2.content))
        (text, vlog cfg g.2.2 ++ failLog)
    | none => (get_fallback_policy_text claim_info, [])
  (step.1, pre ++ step.2 ++
    vlog cfg [">> Retrieved " ++ toString step.1.length ++
      " characters of policy text"])

/-- generate_recommendation stage: LLM if present, fallback on absence or
failure. -/
def generate_recommendation (cfg : Config) (claim_info : ClaimInfo)
    (policy_text : String) : PolicyRecommendation × List String :=
  let pre := vlog cfg [">> Generating Policy Recommendation"]
  let step :=
    match cfg.llm with
    | some l =>
        match l.predictRec claim_info policy_text with
        | Except.ok rec => (rec, ([] : List String))
        | Except.error _ =>
            (generate_fallback_recommendation claim_info policy_text,
             vlog cfg [">> LLM recommendation failed, using fallback"])
    | none => (generate_fallback_recommendation claim_info policy_text, [])
  (step.1, pre ++ step.2 ++
    vlog cfg [">> Recommendation: " ++ reprStr step.1])

/-- run of AutoInsuranceWorkflow: parse, then drive the claim through the
fixed stage order, collecting the trace stream. Parse failures abort the
run with the raised error; every later stage is total. -/
def run_workflow (cfg : Config) (input : RawInput) :
    Except ParseErr (ClaimDecision × List String) :=
  match parse_claim input with
  | Except.error e => Except.error e
  | Except.ok claim_info =>
      let l0 := vlog cfg [">> Loading Claim Info",
        ">> Loaded claim: " ++ claim_info.claim_number]
      let q := generate_policy_queries cfg claim_info
      let p := retrieve_policy_text cfg claim_info q.1
      let r := generate_recommendation cfg claim_info p.1
      let l3 := vlog cfg [">> Finalizing Decision"]
      let decision := finalize_decision claim_info r.1
      let l4 := vlog cfg [">> Final Decision: Covered=" ++
        toString decision.covered ++ ", Payout=$" ++
        fmt2 decision.recommended_payout]
      let l5 := vlog cfg [">> Decision: " ++ reprStr decision]
      Except.ok (decision, l0 ++ q.2 ++ p.2 ++ r.2 ++ l3 ++ l4 ++ l5)

/-- The last document of a sequence carrying a given identifier, if any:
the entry a last-seen-wins merge must keep. -/
def lastSeen (k : String) : List Doc → Option Doc
  | [] => none
  | d :: ds =>
      match lastSeen k ds with
      | some x => some x
      | none => if d.id_ = k then some d else none

/-- Identifiers of a document sequence in first-seen order, without
duplicates: the key order a Python dict built by repeated assignment has. -/
def firstSeenIds (ds : List Doc) : List String :=
  ds.foldl (fun ks d => if d.id_ ∈ ks then ks else ks ++ [d.id_]) []

/-- Scenario A input of the spec: a complete claim record with an
estimated repair cost of 5000. -/
def claimDataA : JObj :=
  [("claim_number", JVal.jstr "C-1"), ("policy_number", JVal.jstr "P-1"),
   ("claimant_name", JVal.jstr "John"),
   ("date_of_loss", JVal.jstr "2025-06-20"),
   ("loss_description", JVal.jstr "Collision"),
   ("estimated_repair_cost", JVal.jnum 5000)]

/-- Scenario B input: the same record with estimated_repair_cost 20000. -/
def claimDataB : JObj :=
  [("claim_number", JVal.jstr "C-1"), ("policy_number", JVal.jstr "P-1"),
   ("claimant_name", JVal.jstr "John"),
   ("date_of_loss", JVal.jstr "2025-06-20"),
   ("loss_description", JVal.jstr "Collision"),
   ("estimated_repair_cost", JVal.jnum 20000)]

/-- The parsed record of Scenario A. -/
def claimInfoA : ClaimInfo :=
  ⟨"C-1", "P-1", "John", "2025-06-20", "Collision", 5000, none⟩

/-- The parsed record of Scenario B. -/
def claimInfoB : ClaimInfo :=
  ⟨"C-1", "P-1", "John", "2025-06-20", "Collision", 20000, none⟩

/-- The Scenario A record with its estimated_repair_cost bound to the
numeric string "5000" instead of a JSON number. -/
def coercedClaimData : JObj :=
  [("claim_number", JVal.jstr "C-1"), ("policy_number", JVal.jstr "P-1"),
   ("claimant_name", JVal.jstr "John"),
   ("date_of_loss", JVal.jstr "2025-06-20"),
   ("loss_description", JVal.jstr "Collision"),
   ("estimated_repair_cost", JVal.jstr "5000")]

/-- A reasoning capability that throws on every call (Scenario E). -/
def failingLLM : LLMCap where
  predictQueries := fun _ => Except.error ()
  predictRec := fun _ _ => Except.error ()

/-- An input whose claim_number is the empty string and whose estimated
repair cost is negative, but every field is present with its declared
type. -/
def degenerateClaimData : JObj :=
  [("claim_number", JVal.jstr ""), ("policy_number", JVal.jstr "P-1"),
   ("claimant_name", JVal.jstr "John"),
   ("date_of_loss", JVal.jstr "2025-06-20"),
   ("loss_description", JVal.jstr "Collision"),
   ("estimated_repair_cost", JVal.jnum (-1))]

end Workflow

namespace Workflow

section AssocLemmas

variable {α : Type}

theorem assocGet_map_upd (m : List (String × α)) (k : String) (v : α) :
    assocGet (m.map (fun p => if p.1 = k then (k, v) else p)) k =
      (assocGet m k).map (fun _ => v) := by
  induction m with
  | nil => rfl
  | cons p t ih =>
      by_cases hp : p.1 = k
      · simp [assocGet, hp]
      · simp [assocGet, hp, ih]

theorem assocGet_cons (p : String × α) (t : List (String × α)) (k : String) :
    assocGet (p :: t) k = if p.1 = k then some p.2 else assocGet t k := rfl

theorem assocGet_map_upd_ne (m : List (String × α)) (k k' : String) (v : α)
    (h : k' ≠ k) :
    assocGet (m.map (fun p => if p.1 = k then (k, v) else p)) k' =
      assocGet m k' := by
  have hkk : ¬ (k = k') := fun hk => h hk.symm
  induction m with
  | nil => rfl
  | cons p t ih =>
      by_cases hp : p.1 = k
      · have hp' : ¬ (p.1 = k') := by
          rw [hp]
          exact hkk
        simp only [List.map_cons, if_pos hp, assocGet_cons, ih]
        simp [hkk, hp']
      · simp only [List.map_cons, if_neg hp, assocGet_cons, ih]

theorem assocGet_append (m l : List (String × α)) (k : String) :
    assocGet (m ++ l) k =
      match assocGet m k with
      | some v => some v
      | none => assocGet l k := by
  induction m with
  | nil => rfl
  | cons p t ih =>
      by_cases hp : p.1 = k
      · simp [assocGet, hp]
      · simp [assocGet, hp, ih]

theorem assocGet_none_of_not_any (m : List (String × α)) (k : String)
    (h : m.any (fun p => p.1 = k) = false) : assocGet m k = none := by
  induction m with
  | nil => rfl
  | cons p t ih =>
      simp only [List.any_cons, Bool.or_eq_false_iff] at h
      have hp : ¬ p.1 = k := by
        intro hk
        simp [hk] at h
      simp [assocGet, hp, ih h.2]

theorem assocGet_set_self (m : List (String × α)) (k : String) (v : α) :
    assocGet (assocSet m k v) k = some v := by
  unfold assocSet
  by_cases h : m.any (fun p => p.1 = k)
  · rw [if_pos h, assocGet_map_upd]
    induction m with
    | nil => simp at h
    | cons p t ih =>
        by_cases hp : p.1 = k
        · simp [assocGet, hp]
        · simp only [List.any_cons] at h
          have ht : t.any (fun p => p.1 = k) = true := by
            rcases Bool.or_eq_true_iff.mp h with h1 | h1
            · exact absurd (by simpa using h1) hp
            · exact h1
          simp [assocGet, hp, ih ht]
  · rw [if_neg h, assocGet_append,
      assocGet_none_of_not_any m k (Bool.eq_false_iff.mpr h)]
    simp [assocGet]

theorem assocGet_set_ne (m : List (String × α)) (k k' : String) (v : α)
    (h : k' ≠ k) : assocGet (assocSet m k v) k' = assocGet m k' := by
  unfold assocSet
  by_cases hm : m.any (fun p => p.1 = k)
  · rw [if_pos hm, assocGet_map_upd_ne m k k' v h]
  · rw [if_neg hm, assocGet_append]
    have hkk : ¬ (k = k') := fun hk => h hk.symm
    cases hg : assocGet m k' with
    | some w => simp
    | none => simp [assocGet, hkk]

theorem keys_map_upd (m : List (String × α)) (k : String) (v : α) :
    (m.map (fun p => if p.1 = k then (k, v) else p)).map Prod.fst =
      m.map Prod.fst := by
  induction m with
  | nil => rfl
  | cons p t ih =>
      by_cases hp : p.1 = k
      · simp [hp, ih]
      · simp [hp, ih]

theorem keys_set (m : List (String × α)) (k : String) (v : α) :
    (assocSet m k v).map Prod.fst =
      if m.any (fun p => p.1 = k) then m.map Prod.fst
      else m.map Prod.fst ++ [k] := by
  unfold assocSet
  by_cases hm : m.any (fun p => p.1 = k)
  · rw [if_pos hm, if_pos hm, keys_map_upd]
  · rw [if_neg hm, if_neg hm]
    simp

theorem any_key_iff_mem (m : List (String × α)) (k : String) :
    m.any (fun p => p.1 = k) = true ↔ k ∈ m.map Prod.fst := by
  simp [List.any_eq_true, List.mem_map]

end AssocLemmas

section ParseLemmas

theorem dget_dpop_self (m : JObj) (k : String) : dget (dpop m k) k = none := by
  induction m with
  | nil => rfl
  | cons p t ih =>
      by_cases hp : p.1 = k
      · rw [dpop, if_pos hp]
        exact ih
      · rw [dpop, if_neg hp, dget, assocGet_cons, if_neg hp]
        exact ih

theorem dget_dpop_ne (m : JObj) (k k' : String) (h : k' ≠ k) :
    dget (dpop m k) k' = dget m k' := by
  induction m with
  | nil => rfl
  | cons p t ih =>
      by_cases hp : p.1 = k
      · have hp' : ¬ (p.1 = k') := by
          rw [hp]
          exact fun hk => h hk.symm
        rw [dpop, if_pos hp, ih]
        show assocGet t k' = assocGet (p :: t) k'
        rw [assocGet_cons, if_neg hp']
      · rw [dpop, if_neg hp, dget, assocGet_cons, dget, assocGet_cons]
        by_cases hp' : p.1 = k'
        · rw [if_pos hp', if_pos hp']
        · rw [if_neg hp', if_neg hp']
          exact ih

theorem dget_moveKey_other (m : JObj) (src dst k : String)
    (hs : k ≠ src) (hd : k ≠ dst) :
    dget (moveKey m src dst) k = dget m k := by
  unfold moveKey
  cases hg : dget m src with
  | none => rfl
  | some v =>
      show dget (dset (dpop m src) dst v) k = dget m k
      rw [dset, dget, assocGet_set_ne _ _ _ _ hd]
      exact dget_dpop_ne m src k hs

theorem dget_moveKey_dst (m : JObj) (src dst : String) (v : JVal)
    (h : dget m src = some v) :
    dget (moveKey m src dst) dst = some v := by
  unfold moveKey
  rw [h]
  show dget (dset (dpop m src) dst v) dst = some v
  rw [dset, dget, assocGet_set_self]

theorem dget_moveKey_src (m : JObj) (src dst : String) (v : JVal)
    (hne : src ≠ dst) (h : dget m src = some v) :
    dget (moveKey m src dst) src = none := by
  unfold moveKey
  rw [h]
  show dget (dset (dpop m src) dst v) src = none
  rw [dset, dget, assocGet_set_ne _ _ _ _ hne]
  exact dget_dpop_self m src

theorem dget_moveKey_absent (m : JObj) (src dst : String)
    (h : dget m src = none) : moveKey m src dst = m := by
  unfold moveKey
  rw [h]

theorem dget_renameLegacy_of_untouched (m : JObj) (k : String)
    (h1 : k ≠ "damage_amount") (h2 : k ≠ "estimated_repair_cost")
    (h3 : k ≠ "policyholder_name") (h4 : k ≠ "claimant_name")
    (h5 : k ≠ "date_of_incident") (h6 : k ≠ "date_of_loss")
    (h7 : k ≠ "description") (h8 : k ≠ "loss_description") :
    dget (renameLegacy m) k = dget m k := by
  rw [renameLegacy, dget_moveKey_other _ _ _ _ h7 h8,
    dget_moveKey_other _ _ _ _ h5 h6, dget_moveKey_other _ _ _ _ h3 h4,
    dget_moveKey_other _ _ _ _ h1 h2]

end ParseLemmas

/-- C10: each legacy alias takes precedence over its canonical field: when
an input object binds a legacy key, the rename table overwrites the
canonical field with the legacy value (also when the canonical key was
already bound) and the legacy key is removed before validation runs. -/
theorem C10_legacy_alias_precedence (m : JObj) :
    (∀ v, dget m "damage_amount" = some v →
       dget (renameLegacy m) "estimated_repair_cost" = some v ∧
       dget (renameLegacy m) "damage_amount" = none) ∧
    (∀ v, dget m "policyholder_name" = some v →
       dget (renameLegacy m) "claimant_name" = some v ∧
       dget (renameLegacy m) "policyholder_name" = none) ∧
    (∀ v, dget m "date_of_incident" = some v →
       dget (renameLegacy m) "date_of_loss" = some v ∧
       dget (renameLegacy m) "date_of_incident" = none) ∧
    (∀ v, dget m "description" = some v →
       dget (renameLegacy m) "loss_description" = some v ∧
       dget (renameLegacy m) "description" = none) := by
  refine ⟨fun v h => ⟨?_, ?_⟩, fun v h => ⟨?_, ?_⟩,
    fun v h => ⟨?_, ?_⟩, fun v h => ⟨?_, ?_⟩⟩
  · rw [renameLegacy, dget_moveKey_other _ _ _ _ (by decide) (by decide),
      dget_moveKey_other _ _ _ _ (by decide) (by decide),
      dget_moveKey_other _ _ _ _ (by decide) (by decide)]
    exact dget_moveKey_dst m _ _ v h
  · rw [renameLegacy, dget_moveKey_other _ _ _ _ (by decide) (by decide),
      dget_moveKey_other _ _ _ _ (by decide) (by decide),
      dget_moveKey_other _ _ _ _ (by decide) (by decide)]
    exact dget_moveKey_src m _ _ v (by decide) h
  · rw [renameLegacy, dget_moveKey_other _ _ _ _ (by decide) (by decide),
      dget_moveKey_other _ _ _ _ (by decide) (by decide)]
    refine dget_moveKey_dst _ _ _ v ?_
    rw [dget_moveKey_other _ _ _ _ (by decide) (by decide)]
    exact h
  · rw [renameLegacy, dget_moveKey_other _ _ _ _ (by decide) (by decide),
      dget_moveKey_other _ _ _ _ (by decide) (by decide)]
    refine dget_moveKey_src _ _ _ v (by decide) ?_
    rw [dget_moveKey_other _ _ _ _ (by decide) (by decide)]
    exact h
  · rw [renameLegacy, dget_moveKey_other _ _ _ _ (by decide) (by decide)]
    refine dget_moveKey_dst _ _ _ v ?_
    rw [dget_moveKey_other _ _ _ _ (by decide) (by decide),
      dget_moveKey_other _ _ _ _ (by decide) (by decide)]
    exact h
  · rw [renameLegacy, dget_moveKey_other _ _ _ _ (by decide) (by decide)]
    refine dget_moveKey_src _ _ _ v (by decide) ?_
    rw [dget_moveKey_other _ _ _ _ (by decide) (by decide),
      dget_moveKey_other _ _ _ _ (by decide) (by decide)]
    exact h
  · rw [renameLegacy]
    refine dget_moveKey_dst _ _ _ v ?_
    rw [dget_moveKey_other _ _ _ _ (by decide) (by decide),
      dget_moveKey_other _ _ _ _ (by decide) (by decide),
      dget_moveKey_other _ _ _ _ (by decide) (by decide)]
    exact h
  · rw [renameLegacy]
    refine dget_moveKey_src _ _ _ v (by decide) ?_
    rw [dget_moveKey_other _ _ _ _ (by decide) (by decide),
      dget_moveKey_other _ _ _ _ (by decide) (by decide),
      dget_moveKey_other _ _ _ _ (by decide) (by decide)]
    exact h

/-- Witness for C10 at a concrete object binding both damage_amount and
estimated_repair_cost: the legacy value 7 wins over the canonical 3. -/
theorem C10_legacy_alias_precedence_witness :
    dget (renameLegacy [("damage_amount", JVal.jnum 7),
      ("estimated_repair_cost", JVal.jnum 3)]) "estimated_repair_cost" =
      some (JVal.jnum 7) ∧
    dget (renameLegacy [("damage_amount", JVal.jnum 7),
      ("estimated_repair_cost", JVal.jnum 3)]) "damage_amount" = none :=
  (C10_legacy_alias_precedence
    [("damage_amount", JVal.jnum 7), ("estimated_repair_cost", JVal.jnum 3)]).1
    (JVal.jnum 7) (by decide)

set_option maxRecDepth 8000

theorem run_nocap (m : JObj) (ci : ClaimInfo)
    (h : parse_claim (RawInput.content m) = Except.ok ci) :
    (run_workflow {} (RawInput.content m)).map Prod.fst =
      Except.ok (finalize_decision ci (generate_fallback_recommendation ci
        (get_fallback_policy_text ci))) := by
  simp only [run_workflow, h]
  rfl

theorem fallback_rec_spec (c : ClaimInfo) (e : String) :
    generate_fallback_recommendation c e =
      ⟨"PART D - COLLISION COVERAGE",
       "Claim " ++ c.claim_number ++ " for $" ++
         fmt2 c.estimated_repair_cost ++ " damage" ++
         (if c.estimated_repair_cost < 15000 then
           " is covered. Settlement: $" ++
             fmt2 (max 0 (c.estimated_repair_cost - 500)) ++
             " after $" ++ fmt2 500 ++ " deductible."
          else " exceeds policy limits and is not covered."),
       some 500,
       some (if c.estimated_repair_cost < 15000
             then max 0 (c.estimated_repair_cost - 500) else 0)⟩ := by
  by_cases h : c.estimated_repair_cost < 15000 <;>
    simp [generate_fallback_recommendation, h]

theorem fmt2_5000 : fmt2 5000 = "5000.00" := by
  rw [fmt2, show ((5000:ℚ) * 100) = 500000 from by norm_num,
    show round ((500000:ℚ)) = 500000 from by norm_num [round_eq]]
  decide

theorem fmt2_4500 : fmt2 4500 = "4500.00" := by
  rw [fmt2, show ((4500:ℚ) * 100) = 450000 from by norm_num,
    show round ((450000:ℚ)) = 450000 from by norm_num [round_eq]]
  decide

theorem fmt2_500 : fmt2 500 = "500.00" := by
  rw [fmt2, show ((500:ℚ) * 100) = 50000 from by norm_num,
    show round ((50000:ℚ)) = 50000 from by norm_num [round_eq]]
  decide

theorem fmt2_20000 : fmt2 20000 = "20000.00" := by
  rw [fmt2, show ((20000:ℚ) * 100) = 2000000 from by norm_num,
    show round ((2000000:ℚ)) = 2000000 from by norm_num [round_eq]]
  decide

/-- C1: with no retriever and no reasoner configured, the Scenario A input
(cost 5000) yields the Decision covered = true, deductible = 500,
recommended_payout = 4500, and the Scenario B input (cost 20000) yields
covered = false, deductible = 500, recommended_payout = 0. -/
theorem C1_scenarios :
    (run_workflow {} (RawInput.content claimDataA)).map Prod.fst =
      Except.ok ⟨"C-1", true, 500, 4500,
        some "Claim C-1 for $5000.00 damage is covered. Settlement: $4500.00 after $500.00 deductible."⟩ ∧
    (run_workflow {} (RawInput.content claimDataB)).map Prod.fst =
      Except.ok ⟨"C-1", false, 500, 0,
        some "Claim C-1 for $20000.00 damage exceeds policy limits and is not covered."⟩ := by
  constructor
  · rw [run_nocap claimDataA claimInfoA (by decide), fallback_rec_spec,
      show claimInfoA.estimated_repair_cost = (5000:ℚ) from rfl,
      if_pos (by norm_num : (5000:ℚ) < 15000),
      if_pos (by norm_num : (5000:ℚ) < 15000),
      show max (0:ℚ) ((5000:ℚ) - 500) = 4500 from by
        rw [show (5000:ℚ) - 500 = 4500 from by norm_num]
        exact max_eq_right (by norm_num),
      fmt2_5000, fmt2_4500, fmt2_500]
    decide
  · rw [run_nocap claimDataB claimInfoB (by decide), fallback_rec_spec,
      show claimInfoB.estimated_repair_cost = (20000:ℚ) from rfl,
      if_neg (by norm_num : ¬ ((20000:ℚ) < 15000)),
      if_neg (by norm_num : ¬ ((20000:ℚ) < 15000)),
      fmt2_20000]
    decide

/-- C2: for every claim record and every evidence text, the fallback
recommendation covers exactly the claims with estimated_repair_cost below
15000, fixes the deductible at 500, settles at max(0, cost minus 500) when
covered and 0 otherwise, uses the constant policy_section label, and never
reads the evidence-text argument (equal outputs for any two evidence
texts). The function is a pure Lean function, hence deterministic and
side-effect-free. -/
theorem C2_fallback_recommendation (c : ClaimInfo) (e1 e2 : String) :
    generate_fallback_recommendation c e1 =
      generate_fallback_recommendation c e2 ∧
    (generate_fallback_recommendation c e1).deductible = some 500 ∧
    (generate_fallback_recommendation c e1).settlement_amount =
      some (if c.estimated_repair_cost < 15000
            then max 0 (c.estimated_repair_cost - 500) else 0) ∧
    (generate_fallback_recommendation c e1).policy_section =
      "PART D - COLLISION COVERAGE" ∧
    (generate_fallback_recommendation c e1).recommendation_summary =
      "Claim " ++ c.claim_number ++ " for $" ++
        fmt2 c.estimated_repair_cost ++ " damage" ++
      (if c.estimated_repair_cost < 15000 then
        " is covered. Settlement: $" ++
          fmt2 (max 0 (c.estimated_repair_cost - 500)) ++
          " after $" ++ fmt2 500 ++ " deductible."
       else " exceeds policy limits and is not covered.") := by
  by_cases h : c.estimated_repair_cost < 15000 <;>
    simp [generate_fallback_recommendation, h]

/-- C3: the decision finalizer is a total function of the recommendation;
it marks the claim covered exactly when the lower-cased summary contains
the word covered without containing not covered, or a settlement amount is
present and positive; the deductible and payout default to 0 when unset,
and otherwise equal the recommendation fields (the Python truthiness on a
settlement of 0.0 coincides with the 0 default). -/
theorem C3_finalize_decision (c : ClaimInfo) (rec : PolicyRecommendation) :
    ((finalize_decision c rec).covered = true ↔
      ((strContains (strLower rec.recommendation_summary) "covered" = true ∧
        strContains (strLower rec.recommendation_summary) "not covered" = false) ∨
       (∃ s, rec.settlement_amount = some s ∧ 0 < s))) ∧
    (finalize_decision c rec).deductible = rec.deductible.getD 0 ∧
    (finalize_decision c rec).recommended_payout =
      rec.settlement_amount.getD 0 ∧
    (finalize_decision c rec).claim_number = c.claim_number ∧
    (finalize_decision c rec).notes = some rec.recommendation_summary := by
  refine ⟨?_, ?_, ?_, rfl, rfl⟩
  · cases hs : rec.settlement_amount with
    | none =>
        simp [finalize_decision, hs, Bool.or_eq_true, Bool.and_eq_true,
          Bool.not_eq_true']
    | some s =>
        by_cases h0 : 0 < s <;>
          simp [finalize_decision, hs, h0, Bool.or_eq_true, Bool.and_eq_true,
            Bool.not_eq_true']
  · cases hd : rec.deductible <;> simp [finalize_decision, hd]
  · cases hs : rec.settlement_amount with
    | none => simp [finalize_decision, hs]
    | some s =>
        by_cases h0 : s = 0 <;> simp [finalize_decision, hs, h0]

theorem validate_error_payload (m : JObj) (errs : List String)
    (h : model_validate m = Except.error errs) : errs = offendingFields m := by
  unfold model_validate at h
  split at h
  · exact absurd h (by simp)
  · exact (Except.error.inj h).symm

theorem validate_ok_isSome (m : JObj) (ci : ClaimInfo)
    (h : model_validate m = Except.ok ci) :
    (getStr m "claim_number").isSome = true ∧
    (getStr m "policy_number").isSome = true ∧
    (getStr m "claimant_name").isSome = true ∧
    (getStr m "date_of_loss").isSome = true ∧
    (getStr m "loss_description").isSome = true ∧
    (getFloat m "estimated_repair_cost").isSome = true ∧
    (getVehicle m).isSome = true := by
  unfold model_validate at h
  split at h
  · rename_i cn pn nm dl ld rc vd h1 h2 h3 h4 h5 h6 h7
    simp [h1, h2, h3, h4, h5, h6, h7]
  · exact absurd h (by simp)

theorem validate_ok_of_isSome (m : JObj)
    (h1 : (getStr m "claim_number").isSome = true)
    (h2 : (getStr m "policy_number").isSome = true)
    (h3 : (getStr m "claimant_name").isSome = true)
    (h4 : (getStr m "date_of_loss").isSome = true)
    (h5 : (getStr m "loss_description").isSome = true)
    (h6 : (getFloat m "estimated_repair_cost").isSome = true)
    (h7 : (getVehicle m).isSome = true) :
    ∃ ci, model_validate m = Except.ok ci := by
  obtain ⟨cn, e1⟩ := Option.isSome_iff_exists.mp h1
  obtain ⟨pn, e2⟩ := Option.isSome_iff_exists.mp h2
  obtain ⟨nm, e3⟩ := Option.isSome_iff_exists.mp h3
  obtain ⟨dl, e4⟩ := Option.isSome_iff_exists.mp h4
  obtain ⟨ld, e5⟩ := Option.isSome_iff_exists.mp h5
  obtain ⟨rc, e6⟩ := Option.isSome_iff_exists.mp h6
  obtain ⟨vd, e7⟩ := Option.isSome_iff_exists.mp h7
  refine ⟨⟨cn, pn, nm, dl, ld, rc, vd⟩, ?_⟩
  simp [model_validate, e1, e2, e3, e4, e5, e6, e7]

theorem validate_fails_of_fieldOk_false (m : JObj) (f : String)
    (hf : f ∈ requiredFields) (h : fieldOk m f = false) :
    model_validate m = Except.error (offendingFields m) ∧
      f ∈ offendingFields m := by
  constructor
  · cases hv : model_validate m with
    | ok ci =>
        obtain ⟨h1, h2, h3, h4, h5, h6, h7⟩ := validate_ok_isSome m ci hv
        simp [requiredFields] at hf
        rcases hf with rfl | rfl | rfl | rfl | rfl | rfl <;>
          simp [fieldOk, h1, h2, h3, h4, h5, h6] at h
    | error errs => rw [validate_error_payload m errs hv]
  · refine List.mem_append_left _ (List.mem_filter.mpr ⟨hf, ?_⟩)
    rw [h]
    rfl

/-- C4, counterexample: an input whose claim_number is the empty string
and whose estimated_repair_cost is negative is accepted by parse, so the
claimed non-empty / non-negative invariant does not hold of returned
records. -/
theorem C4_accepts_empty_and_negative :
    parse_claim (RawInput.content degenerateClaimData) =
      Except.ok ⟨"", "P-1", "John", "2025-06-20", "Collision", -1, none⟩ ∧
    ((-1 : ℚ) < 0 ∧ ("" : String).length = 0) := by
  refine ⟨by decide, by norm_num, rfl⟩

/-- C4, amended: parse returns a ClaimRecord exactly when every required
field is present and passes the pydantic v2 lax type check after renaming
(strings for the five string fields; a JSON number or a numeric string,
coerced to float, for estimated_repair_cost; and the optional
vehicle_details, when present, a string or null); it does not check
non-emptiness of the string fields nor non-negativity of the cost. In
particular a record binding estimated_repair_cost to the string "5000" is
accepted with cost 5000. -/
theorem C4_parse_field_typing (m : JObj) :
    ((∃ ci, parse_claim (RawInput.content m) = Except.ok ci) ↔
      (requiredFields.all (fun f => fieldOk (renameLegacy m) f) = true ∧
       (getVehicle (renameLegacy m)).isSome = true)) ∧
    parse_claim (RawInput.content coercedClaimData) =
      Except.ok ⟨"C-1", "P-1", "John", "2025-06-20", "Collision", 5000,
        none⟩ := by
  refine ⟨?_, by decide⟩
  constructor
  · rintro ⟨ci, h⟩
    have hv : model_validate (renameLegacy m) = Except.ok ci := by
      simp only [parse_claim] at h
      split at h
      · rename_i ci2 heq
        cases h
        exact heq
      · exact absurd h (by simp)
    obtain ⟨h1, h2, h3, h4, h5, h6, h7⟩ :=
      validate_ok_isSome (renameLegacy m) ci hv
    refine ⟨?_, h7⟩
    simp [requiredFields, fieldOk, h1, h2, h3, h4, h5, h6]
  · rintro ⟨hall, hv⟩
    simp [requiredFields, fieldOk] at hall
    obtain ⟨h1, h2, h3, h4, h5, h6⟩ := hall
    obtain ⟨ci, hok⟩ :=
      validate_ok_of_isSome (renameLegacy m) h1 h2 h3 h4 h5 h6 hv
    exact ⟨ci, by simp [parse_claim, hok]⟩

/-- C5: parse fails with the FileNotFoundError exactly when the input
source does not exist; the rename table is applied before validation, so
the outcome depends only on the renamed object; an input missing
claim_number fails with a validation error whose offending-field list
contains claim_number; and in general any required field missing or
failing its pydantic v2 lax type check after renaming (a non-string in a
string field; a float field that is neither a JSON number nor a coercible
numeric string) produces a validation error naming that field; in every
such case no ClaimRecord is returned. -/
theorem C5_parse_error_taxonomy (input : RawInput) (m : JObj) (f : String) :
    (parse_claim input = Except.error ParseErr.notFoundError ↔
      input = RawInput.fileNotFound) ∧
    (∀ m2, renameLegacy m = renameLegacy m2 →
      parse_claim (RawInput.content m) = parse_claim (RawInput.content m2)) ∧
    (dget m "claim_number" = none →
      ∃ errs, parse_claim (RawInput.content m) =
          Except.error (ParseErr.valueError errs) ∧ "claim_number" ∈ errs) ∧
    (f ∈ requiredFields → fieldOk (renameLegacy m) f = false →
      ∃ errs, parse_claim (RawInput.content m) =
          Except.error (ParseErr.valueError errs) ∧ f ∈ errs) := by
  refine ⟨?_, ?_, ?_, ?_⟩
  · cases input with
    | fileNotFound => simp [parse_claim]
    | badJson => simp [parse_claim]
    | content m2 =>
        simp only [parse_claim]
        constructor
        · intro h
          split at h <;> simp at h
        · intro h
          exact absurd h (by simp)
  · intro m2 he
    simp [parse_claim, he]
  · intro h
    have h' : dget (renameLegacy m) "claim_number" = none := by
      rw [dget_renameLegacy_of_untouched m _ (by decide) (by decide) (by decide)
        (by decide) (by decide) (by decide) (by decide) (by decide)]
      exact h
    have hok : fieldOk (renameLegacy m) "claim_number" = false := by
      simp [fieldOk, getStr, h']
    obtain ⟨hv, hmem⟩ := validate_fails_of_fieldOk_false (renameLegacy m)
      "claim_number" (by simp [requiredFields]) hok
    exact ⟨offendingFields (renameLegacy m), by simp [parse_claim, hv], hmem⟩
  · intro hf h
    obtain ⟨hv, hmem⟩ := validate_fails_of_fieldOk_false (renameLegacy m) f hf h
    exact ⟨offendingFields (renameLegacy m), by simp [parse_claim, hv], hmem⟩

/-- Witness for C5: an input binding only policy_number fails with a
validation error naming claim_number. -/
theorem C5_parse_error_taxonomy_witness :
    ∃ errs, parse_claim (RawInput.content [("policy_number", JVal.jstr "P-1")]) =
        Except.error (ParseErr.valueError errs) ∧ "claim_number" ∈ errs :=
  (C5_parse_error_taxonomy RawInput.fileNotFound
    [("policy_number", JVal.jstr "P-1")] "claim_number").2.2.1 (by decide)

theorem mergeAux (ds : List Doc) (acc : List (String × Doc)) (k : String) :
    assocGet (ds.foldl (fun m d => assocSet m d.id_ d) acc) k =
      match lastSeen k ds with
      | some d => some d
      | none => assocGet acc k := by
  induction ds generalizing acc with
  | nil => simp [lastSeen]
  | cons d t ih =>
      rw [List.foldl_cons, ih, lastSeen]
      cases hl : lastSeen k t with
      | some x => simp
      | none =>
          by_cases hk : d.id_ = k
          · rw [hk, assocGet_set_self]
            simp [hk]
          · have hk' : k ≠ d.id_ := fun he => hk he.symm
            rw [assocGet_set_ne _ _ _ _ hk']
            simp [hk]

theorem mergeDocs_lookup (ds : List Doc) (k : String) :
    assocGet (mergeDocs ds) k = lastSeen k ds := by
  rw [mergeDocs, mergeAux]
  cases lastSeen k ds <;> simp [assocGet]

theorem keysAux (ds : List Doc) (acc : List (String × Doc)) :
    (ds.foldl (fun m d => assocSet m d.id_ d) acc).map Prod.fst =
      ds.foldl (fun ks d => if d.id_ ∈ ks then ks else ks ++ [d.id_])
        (acc.map Prod.fst) := by
  induction ds generalizing acc with
  | nil => rfl
  | cons d t ih =>
      rw [List.foldl_cons, List.foldl_cons, ih, keys_set]
      congr 1
      by_cases hmem : d.id_ ∈ acc.map Prod.fst
      · rw [if_pos ((any_key_iff_mem acc d.id_).mpr hmem), if_pos hmem]
      · rw [if_neg (fun h => hmem ((any_key_iff_mem acc d.id_).mp h)),
          if_neg hmem]

theorem mergeDocs_keys (ds : List Doc) :
    (mergeDocs ds).map Prod.fst = firstSeenIds ds := by
  rw [mergeDocs, keysAux]
  rfl

theorem nodupAux (ds : List Doc) (ks : List String) (h : ks.Nodup) :
    (ds.foldl (fun ks d => if d.id_ ∈ ks then ks else ks ++ [d.id_])
      ks).Nodup := by
  induction ds generalizing ks with
  | nil => exact h
  | cons d t ih =>
      rw [List.foldl_cons]
      apply ih
      by_cases hm : d.id_ ∈ ks
      · rw [if_pos hm]
        exact h
      · rw [if_neg hm]
        simp [List.nodup_append, h, hm]

theorem mergeDocs_keys_nodup (ds : List Doc) :
    ((mergeDocs ds).map Prod.fst).Nodup := by
  rw [mergeDocs_keys, firstSeenIds]
  exact nodupAux ds [] List.nodup_nil

/-- C7: the RetrieveEvidence merge is a last-seen-wins dictionary: for
every retrieved document sequence the merged map binds each identifier
exactly once (keys without duplicates, in first-arrival order) to the
last-seen document for that identifier; the evidence text joins the
surviving contents with a double newline in that order; and when the
retriever is absent, or the full retrieval (queries plus the canonical
declarations-page lookup) yields no documents, the built-in policy-text
template for the claim takes its place. -/
theorem C7_retrieval_merge (ds : List Doc) (k : String) (cfg : Config)
    (r : Retriever) (ci : ClaimInfo) (ev : PolicyQueries) :
    assocGet (mergeDocs ds) k = lastSeen k ds ∧
    (mergeDocs ds).map Prod.fst = firstSeenIds ds ∧
    ((mergeDocs ds).map Prod.fst).Nodup ∧
    ((retrieve_policy_text
        { policy_retriever := none, llm := cfg.llm, verbose := cfg.verbose }
        ci ev).1 = get_fallback_policy_text ci) ∧
    ((retrieve_policy_text
        { policy_retriever := some r, llm := cfg.llm, verbose := cfg.verbose }
        ci ev).1 =
      (let m := mergeDocs (retrieved_docs r ev.queries ci.policy_number)
       if m.isEmpty then get_fallback_policy_text ci
       else String.intercalate "\n\n"
         (m.map (fun p => p.2.content)))) ∧
    (retrieved_docs r ev.queries ci.policy_number = [] →
      (retrieve_policy_text
        { policy_retriever := some r, llm := cfg.llm, verbose := cfg.verbose }
        ci ev).1 = get_fallback_policy_text ci) := by
  refine ⟨mergeDocs_lookup ds k, mergeDocs_keys ds, mergeDocs_keys_nodup ds,
    rfl, rfl, ?_⟩
  intro hempty
  show (let m := mergeDocs (retrieved_docs r ev.queries ci.policy_number)
        if m.isEmpty then get_fallback_policy_text ci
        else String.intercalate "\n\n"
          (m.map (fun p => p.2.content))) = get_fallback_policy_text ci
  rw [hempty]
  rfl

/-- Witness for C7: a present retriever that returns zero results for
every query leaves the fallback policy text in place. -/
theorem C7_retrieval_merge_witness :
    (retrieve_policy_text
      { policy_retriever := some (fun _ => Except.ok []), llm := none,
        verbose := false } claimInfoA ⟨[]⟩).1 =
      get_fallback_policy_text claimInfoA :=
  (C7_retrieval_merge [] "a" {} (fun _ => Except.ok []) claimInfoA
    ⟨[]⟩).2.2.2.2.2 rfl

/-- C6: with a valid input, a run never fails after parsing; capability
failures are absorbed at the call site by the fallback path: a reasoner
that throws on every call produces a Decision identical to the run with
no reasoner configured, for every retriever, verbose setting and input. -/
theorem C6_capability_failures_absorbed (llm : LLMCap)
    (hq : ∀ ci, llm.predictQueries ci = Except.error ())
    (hr : ∀ ci pt, llm.predictRec ci pt = Except.error ())
    (retr : Option Retriever) (v : Bool) (input : RawInput) :
    ((∃ ci, parse_claim input = Except.ok ci) →
      ∃ d tr, run_workflow ⟨retr, some llm, v⟩ input = Except.ok (d, tr)) ∧
    (run_workflow ⟨retr, some llm, v⟩ input).map Prod.fst =
      (run_workflow ⟨retr, none, v⟩ input).map Prod.fst := by
  constructor
  · rintro ⟨ci, hp⟩
    simp only [run_workflow, hp]
    exact ⟨_, _, rfl⟩
  · cases hp : parse_claim input with
    | error e => simp [run_workflow, hp]
    | ok ci =>
        simp only [run_workflow, hp, Except.map]
        congr 1
        rw [show (generate_policy_queries ⟨retr, some llm, v⟩ ci).1 =
            (generate_policy_queries ⟨retr, none, v⟩ ci).1 from by
          simp [generate_policy_queries, hq ci]]
        rw [show ∀ ev, (retrieve_policy_text ⟨retr, some llm, v⟩ ci ev).1 =
            (retrieve_policy_text ⟨retr, none, v⟩ ci ev).1 from fun ev => by
          cases retr <;> rfl]
        rw [show ∀ pt, (generate_recommendation ⟨retr, some llm, v⟩ ci pt).1 =
            (generate_recommendation ⟨retr, none, v⟩ ci pt).1 from fun pt => by
          simp [generate_recommendation, hr ci pt]]

/-- Witness for C6: the always-throwing reasoner on the Scenario A input
yields the same decision as the capability-free run. -/
theorem C6_capability_failures_absorbed_witness :
    (run_workflow ⟨none, some failingLLM, false⟩
        (RawInput.content claimDataA)).map Prod.fst =
      (run_workflow ⟨none, none, false⟩
        (RawInput.content claimDataA)).map Prod.fst :=
  (C6_capability_failures_absorbed failingLLM (fun _ => rfl) (fun _ _ => rfl)
    none false (RawInput.content claimDataA)).2

/-- C9: verbose tracing is outcome-transparent: for every capability
configuration and every input, the run with tracing enabled and the run
with tracing disabled return the same Decision (or the same error). -/
theorem C9_trace_transparent (retr : Option Retriever) (llm : Option LLMCap)
    (input : RawInput) :
    (run_workflow ⟨retr, llm, true⟩ input).map Prod.fst =
      (run_workflow ⟨retr, llm, false⟩ input).map Prod.fst := by
  cases hp : parse_claim input with
  | error e => simp [run_workflow, hp]
  | ok ci =>
      simp only [run_workflow, hp, Except.map]
      congr 1
      rw [show (generate_policy_queries ⟨retr, llm, true⟩ ci).1 =
          (generate_policy_queries ⟨retr, llm, false⟩ ci).1 from by
        cases llm with
        | none => rfl
        | some l => cases h : l.predictQueries ci <;>
            simp [generate_policy_queries, h]]
      rw [show ∀ ev, (retrieve_policy_text ⟨retr, llm, true⟩ ci ev).1 =
          (retrieve_policy_text ⟨retr, llm, false⟩ ci ev).1 from fun ev => by
        cases retr <;> rfl]
      rw [show ∀ pt, (generate_recommendation ⟨retr, llm, true⟩ ci pt).1 =
          (generate_recommendation ⟨retr, llm, false⟩ ci pt).1 from fun pt => by
        cases llm with
        | none => rfl
        | some l => cases h : l.predictRec ci pt <;>
            simp [generate_recommendation, h]]

/-- C8: the fallback query generator always succeeds with exactly the five
fixed-template query strings, parameterized only by the policy number and
the lower-cased loss description: any claim record sharing those two
fields yields identical queries. The function is pure, hence deterministic
and free of side effects. -/
theorem C8_fallback_queries (c : ClaimInfo) (cn nm dl : String) (rc : ℚ)
    (vd : Option String) :
    (generate_fallback_queries c).queries.length = 5 ∧
    (generate_fallback_queries c).queries =
      ["Coverage conditions for " ++ c.policy_number,
       "Deductible application for collision damage",
       "Settlement amount calculation for vehicle damage",
       "Exclusions for " ++ strLower c.loss_description,
       "Policy limits and coverage details"] ∧
    generate_fallback_queries c =
      generate_fallback_queries
        ⟨cn, c.policy_number, nm, dl, c.loss_description, rc, vd⟩ :=
  ⟨rfl, rfl, rfl⟩

end Workflow
